import Mathlib

/-!
Shallow embedding of the mcp-guard gateway (src/types.ts, src/moderation.ts,
src/handlers.ts, src/client.ts).

JavaScript values that the code inspects dynamically are modelled by a JSON
value type; tool results are modelled by exactly the shapes moderateToolOutput
distinguishes; the external Guard API, the transports and the backend
enumeration calls are modelled by oracle functions returning either a value or
the message of the raised error.
-/

namespace McpGuard

/-! ## A JSON-like value model for dynamically inspected data -/

/-- A JavaScript/JSON value as far as the code inspects one: null (also
standing for undefined), booleans, numbers (integral model; no claim depends
on float behaviour), strings, arrays and objects. -/
inductive Json where
  | null : Json
  | bool : Bool → Json
  | num : Int → Json
  | str : String → Json
  | arr : List Json → Json
  | obj : List (String × Json) → Json

/-- First binding of a key in an object's field list (JS object keys are
unique, so first = only). -/
def lookupField : List (String × Json) → String → Option Json
  | [], _ => none
  | kv :: rest, k => if kv.1 == k then some kv.2 else lookupField rest k

/-- Property access o.k as the code uses it on values it has checked are not
null/undefined: a missing key or a non-object receiver reads as undefined
(here: none). -/
def Json.getField : Json → String → Option Json
  | .obj fields, k => lookupField fields k
  | _, _ => none

/-- JavaScript truthiness. -/
def Json.truthy : Json → Bool
  | .null => false
  | .bool b => b
  | .num n => n != 0
  | .str s => s != ""
  | .arr _ => true
  | .obj _ => true

/-- Whether `typeof v` is "object" (true for null, arrays and objects). -/
def Json.isObjTypeof : Json → Bool
  | .null => true
  | .arr _ => true
  | .obj _ => true
  | _ => false

/-- Entries of a JS array value, as Object.entries produces them:
stringified indices paired with the elements. -/
def jsEntriesArr : Nat → List Json → List (String × Json)
  | _, [] => []
  | i, x :: xs => (toString i, x) :: jsEntriesArr (i + 1) xs

/-- Entries of a string value, as Object.entries produces them:
stringified indices paired with one-character strings. -/
def jsEntriesStr : Nat → List Char → List (String × Json)
  | _, [] => []
  | i, c :: cs => (toString i, Json.str (String.singleton c)) :: jsEntriesStr (i + 1) cs

/-- Object.entries of a value: fields of an object, indexed elements of an
array, indexed characters of a string, nothing for other primitives. -/
def jsEntriesOf : Json → List (String × Json)
  | .obj fields => fields
  | .arr xs => jsEntriesArr 0 xs
  | .str s => jsEntriesStr 0 s.data
  | _ => []

mutual

/-- Node count of a JSON value (strings weighted by length so that
Object.entries of any value is smaller than the value). -/
def Json.size : Json → Nat
  | .null => 1
  | .bool _ => 1
  | .num _ => 1
  | .str s => 1 + s.length
  | .arr xs => 1 + Json.sizeList xs
  | .obj fs => 1 + Json.sizeFields fs

def Json.sizeList : List Json → Nat
  | [] => 0
  | x :: xs => Json.size x + Json.sizeList xs

def Json.sizeFields : List (String × Json) → Nat
  | [] => 0
  | kv :: fs => Json.size kv.2 + Json.sizeFields fs

end

theorem Json.size_pos (j : Json) : 0 < j.size := by
  cases j <;> simp only [Json.size] <;> omega

theorem Json.sizeFields_of_mem {kv : String × Json} {fs : List (String × Json)}
    (h : kv ∈ fs) : Json.size kv.2 ≤ Json.sizeFields fs := by
  induction fs with
  | nil => cases h
  | cons hd tl ih =>
    rcases List.mem_cons.mp h with rfl | h2
    · simp [Json.sizeFields]
    · have := ih h2
      simp [Json.sizeFields]
      omega

theorem Json.sizeList_of_mem {x : Json} {xs : List Json}
    (h : x ∈ xs) : Json.size x ≤ Json.sizeList xs := by
  induction xs with
  | nil => cases h
  | cons hd tl ih =>
    rcases List.mem_cons.mp h with rfl | h2
    · simp [Json.sizeList]
    · have := ih h2
      simp [Json.sizeList]
      omega

theorem lookupField_mem {fs : List (String × Json)} {k : String} {v : Json}
    (h : lookupField fs k = some v) : ∃ kv ∈ fs, kv.2 = v := by
  induction fs with
  | nil => simp [lookupField] at h
  | cons hd tl ih =>
    by_cases hk : (hd.1 == k) = true
    · refine ⟨hd, List.mem_cons_self _ _, ?_⟩
      simp [lookupField, hk] at h
      exact h
    · simp [lookupField, hk] at h
      obtain ⟨kv, hmem, hv⟩ := ih h
      exact ⟨kv, List.mem_cons_of_mem _ hmem, hv⟩

theorem Json.getField_size {j : Json} {k : String} {v : Json}
    (h : j.getField k = some v) : Json.size v < Json.size j := by
  cases j with
  | obj fs =>
    obtain ⟨kv, hmem, hv⟩ := lookupField_mem h
    have h2 := Json.sizeFields_of_mem hmem
    rw [hv] at h2
    simp only [Json.size]
    omega
  | null => simp [Json.getField] at h
  | bool b => simp [Json.getField] at h
  | num n => simp [Json.getField] at h
  | str s => simp [Json.getField] at h
  | arr xs => simp [Json.getField] at h

theorem jsEntriesArr_size {kv : String × Json} {i : Nat} {xs : List Json}
    (h : kv ∈ jsEntriesArr i xs) : Json.size kv.2 ≤ Json.sizeList xs := by
  induction xs generalizing i with
  | nil => simp [jsEntriesArr] at h
  | cons hd tl ih =>
    simp only [jsEntriesArr, List.mem_cons] at h
    rcases h with rfl | h2
    · simp [Json.sizeList]
    · have := ih h2
      simp [Json.sizeList]
      omega

theorem jsEntriesStr_size {kv : String × Json} {i : Nat} {cs : List Char}
    (h : kv ∈ jsEntriesStr i cs) : Json.size kv.2 ≤ 1 + cs.length := by
  induction cs generalizing i with
  | nil => simp [jsEntriesStr] at h
  | cons hd tl ih =>
    simp only [jsEntriesStr, List.mem_cons] at h
    rcases h with rfl | h2
    · simp [Json.size, String.singleton]
      omega
    · have := ih h2
      simp only [List.length_cons]
      omega

theorem jsEntriesOf_size {kv : String × Json} {v : Json}
    (h : kv ∈ jsEntriesOf v) : Json.size kv.2 ≤ Json.size v := by
  cases v with
  | obj fs =>
    have h2 := Json.sizeFields_of_mem (show kv ∈ fs from h)
    simp only [Json.size]; omega
  | arr xs =>
    have h2 := jsEntriesArr_size (show kv ∈ jsEntriesArr 0 xs from h)
    simp only [Json.size]; omega
  | str s =>
    have h2 := jsEntriesStr_size (show kv ∈ jsEntriesStr 0 s.data from h)
    have h3 : Json.size (Json.str s) = 1 + s.data.length := rfl
    omega
  | null => simp [jsEntriesOf] at h
  | bool b => simp [jsEntriesOf] at h
  | num n => simp [jsEntriesOf] at h

/-! ## The Zod validator shapes built by convertJsonSchemaToZod -/

/-- The Zod validators the translator produces.  An object validator carries
its own shape: field name, field validator, optional flag. -/
inductive ZodType where
  | zstring : ZodType
  | znumber : ZodType
  | zint : ZodType
  | zboolean : ZodType
  | zarrayAny : ZodType
  | zany : ZodType
  | zobject : List (String × ZodType × Bool) → ZodType

/-- A ZodRawShape: field name, validator, and whether .optional() was
applied. -/
def ZodShape : Type := List (String × ZodType × Bool)

/-- Array.prototype.includes on a JS array against a string key: strict
equality can only match string elements. -/
def jsArrayIncludesStr : List Json → String → Bool
  | [], _ => false
  | Json.str s :: rest, k => s == k || jsArrayIncludesStr rest k
  | _ :: rest, k => jsArrayIncludesStr rest k

/-- String.prototype.includes: substring containment. -/
def jsStrIncludes (s k : String) : Bool :=
  decide (k.data <:+: s.data)

/-- Whether a value is null (the only receiver on which the code's property
reads raise). -/
def Json.isNull : Json → Bool
  | .null => true
  | _ => false

/-- Whether a property is optional for `key` under the schema's required
field (handlers.ts line 126): absent or falsy required means optional; an
array or string required supports .includes; any other truthy value raises a
TypeError, reported as an error message. -/
def optionalForKey (reqd : Option Json) (key : String) : Except String Bool :=
  match reqd with
  | none => .ok true
  | some r =>
    if r.truthy = false then .ok true
    else
      match r with
      | .arr xs => .ok (!jsArrayIncludesStr xs key)
      | .str s => .ok (!jsStrIncludes s key)
      | _ => .error "TypeError: required.includes is not a function"

mutual

/-- Translation of src/handlers.ts convertJsonSchemaToZod.  A falsy or
non-object value yields the empty shape; an object schema contributes fields
only when its type is "object" and its properties field is truthy.  The
function returns .error msg exactly where the JavaScript throws: reading
.type of a null property value, or calling .includes on a truthy required
value that has no such method (so the source function is not total). -/
def convertJsonSchemaToZod (j : Json) : Except String ZodShape :=
  if j.truthy = false ∨ j.isObjTypeof = false then .ok []
  else
    match j.getField "type", hp : j.getField "properties" with
    | some (.str "object"), some props =>
      if props.truthy then
        convertProps (Json.size j) (j.getField "required") (jsEntriesOf props)
          (fun kv hkv =>
            Nat.lt_of_le_of_lt (jsEntriesOf_size hkv) (Json.getField_size hp))
      else .ok []
    | _, _ => .ok []
termination_by (Json.size j, 1, 0)
decreasing_by
  exact Prod.Lex.right _ (Prod.Lex.left _ _ (by omega))

/-- The property loop of convertJsonSchemaToZod over Object.entries of the
properties value.  `n` bounds the size of every property value (the bound is
the size of the whole schema), which drives termination of the nested
recursion into object-typed properties. -/
def convertProps (n : Nat) (reqd : Option Json) (entries : List (String × Json))
    (hb : ∀ kv ∈ entries, Json.size kv.2 < n) : Except String ZodShape :=
  match entries with
  | [] => .ok []
  | (key, prop) :: rest =>
    if prop.isNull then .error "TypeError: Cannot read properties of null"
    else
      let tyE : Except String ZodType :=
        match prop.getField "type" with
        | some (.str "string") => .ok .zstring
        | some (.str "number") => .ok .znumber
        | some (.str "integer") => .ok .zint
        | some (.str "boolean") => .ok .zboolean
        | some (.str "array") => .ok .zarrayAny
        | some (.str "object") =>
          match convertJsonSchemaToZod prop with
          | .ok inner => .ok (.zobject inner)
          | .error e => .error e
        | _ => .ok .zany
      match tyE with
      | .error e => .error e
      | .ok ty =>
        match optionalForKey reqd key with
        | .error e => .error e
        | .ok opt =>
          match convertProps n reqd rest
              (fun kv hkv => hb kv (List.mem_cons_of_mem _ hkv)) with
          | .error e => .error e
          | .ok restShape => .ok ((key, ty, opt) :: restShape)
termination_by (n, 0, entries.length)
decreasing_by
  · exact Prod.Lex.left _ _ (hb (key, prop) (List.mem_cons_self _ _))
  · exact Prod.Lex.right _ (Prod.Lex.right _ (by simp only [List.length_cons]; omega))

end

/-! ## The moderation gate (src/moderation.ts, src/types.ts) -/

/-- One element of a tool result content array.  The code reads only the
type and text fields; text is `some s` exactly when the field holds a
string (any other or absent value reads as none). -/
structure ContentItem where
  type : Option String
  text : Option String
deriving DecidableEq

/-- The content field of a tool result as moderateToolOutput distinguishes
it: missing or falsy, present and truthy but not an array, or an array of
content items. -/
inductive ContentField where
  | absent : ContentField
  | notArray : ContentField
  | arr : List ContentItem → ContentField
deriving DecidableEq

/-- A tool result: a falsy value (the `!output` check), or an object with a
content field and an isError flag. -/
inductive ToolOutput where
  | falsy : ToolOutput
  | obj : ContentField → Bool → ToolOutput
deriving DecidableEq

/-- Fixed explanatory text of the canonical blocked response
(src/types.ts BLOCKED_RESPONSE). -/
def blockedText : String :=
  "BLOCKED: This response was blocked by the moderation system due to potential prompt injection content. Please let the user know that their data source may contain prompt injection or jailbreak attempts."

/-- The canonical blocked response: one text segment carrying the fixed
text, isError set. -/
def BLOCKED_RESPONSE : ToolOutput :=
  ToolOutput.obj (ContentField.arr [⟨some "text", some blockedText⟩]) true

/-- An optional flag record of the Guard API response body.  The `info`
payload of the source interface is never read by the code and is omitted
here. -/
structure GuardFlag where
  flagged : Bool
deriving DecidableEq

/-- Parsed Guard API JSON body (types.ts GuardApiResponse): both the
injection_heuristic and the injection_guard field are optional. -/
structure GuardApiResponse where
  injection_heuristic : Option GuardFlag
  injection_guard : Option GuardFlag
deriving DecidableEq

/-- heuristicFlagged || injectionGuardFlagged, each flag defaulting to
false when its field is absent (moderation.ts lines 57-58). -/
def flaggedOf (r : GuardApiResponse) : Bool :=
  (match r.injection_heuristic with
   | some f => f.flagged
   | none => false) ||
  (match r.injection_guard with
   | some f => f.flagged
   | none => false)

/-- JavaScript truthiness of the optional apiKey argument (an absent key
and the empty string are both falsy). -/
def keyTruthy : Option String → Bool
  | none => false
  | some k => k != ""

/-- Oracle for one POST of a text to the Guard endpoint: either the parsed
response body, or the message of the raised error (network failure, abort
on the 5 second timeout, or the non-2xx status error thrown at
moderation.ts line 49).  The fetch itself is outside the embedding; every
claim quantifies over this oracle. -/
abbrev Classifier : Type := String → Except String GuardApiResponse

/-- The for-loop of moderateToolOutput over the content array: only items
with type "text" and a string text field are considered; when the gate is
enabled and the key truthy, the text is classified; a classification error
is rethrown as "Guard API call failed: ...", a flagged response returns the
canonical blocked response at once, and otherwise the loop continues,
returning the original output after the last item. -/
def moderateItems (classify : Classifier) (apiKey : Option String)
    (enableGuardApi : Bool) (output : ToolOutput) :
    List ContentItem → Except String ToolOutput
  | [] => .ok output
  | item :: rest =>
    match item.type, item.text with
    | some "text", some text =>
      if enableGuardApi && keyTruthy apiKey then
        match classify text with
        | .error e => .error ("Guard API call failed: " ++ e)
        | .ok guardResult =>
          if flaggedOf guardResult then .ok BLOCKED_RESPONSE
          else moderateItems classify apiKey enableGuardApi output rest
      else moderateItems classify apiKey enableGuardApi output rest
    | _, _ => moderateItems classify apiKey enableGuardApi output rest

/-- Translation of src/moderation.ts moderateToolOutput: falsy outputs and
outputs whose content field is missing or not an array are returned
unchanged; otherwise the content array is scanned by `moderateItems`. -/
def moderateToolOutput (classify : Classifier) (apiKey : Option String)
    (enableGuardApi : Bool) (output : ToolOutput) : Except String ToolOutput :=
  match output with
  | .falsy => .ok output
  | .obj content _ =>
    match content with
    | .arr items => moderateItems classify apiKey enableGuardApi output items
    | _ => .ok output

/-- Instrumentation mirror of `moderateItems`: the texts actually submitted
to the Guard endpoint, in order (the loop stops at a failed call or a
flagged response). -/
def moderationCallsItems (classify : Classifier) (apiKey : Option String)
    (enableGuardApi : Bool) : List ContentItem → List String
  | [] => []
  | item :: rest =>
    match item.type, item.text with
    | some "text", some text =>
      if enableGuardApi && keyTruthy apiKey then
        match classify text with
        | .error _ => [text]
        | .ok guardResult =>
          if flaggedOf guardResult then [text]
          else text :: moderationCallsItems classify apiKey enableGuardApi rest
      else moderationCallsItems classify apiKey enableGuardApi rest
    | _, _ => moderationCallsItems classify apiKey enableGuardApi rest

/-- The texts a run of moderateToolOutput submits to the Guard endpoint. -/
def moderationCalls (classify : Classifier) (apiKey : Option String)
    (enableGuardApi : Bool) (output : ToolOutput) : List String :=
  match output with
  | .falsy => []
  | .obj (.arr items) _ => moderationCallsItems classify apiKey enableGuardApi items
  | .obj _ _ => []

/-- The content items of an output (empty unless content is an array). -/
def itemsOf : ToolOutput → List ContentItem
  | .obj (.arr items) _ => items
  | _ => []

/-- Whether the content field is absent or not an array (the early-return
guard of moderateToolOutput). -/
def contentNotArray : ToolOutput → Bool
  | .falsy => true
  | .obj (.arr _) _ => false
  | .obj _ _ => true

/-- The text segments of a content array, in order: the texts of items with
type "text" and a string text field. -/
def textsOf : List ContentItem → List String
  | [] => []
  | item :: rest =>
    match item.type, item.text with
    | some "text", some t => t :: textsOf rest
    | _, _ => textsOf rest

/-! ## The tool handler (src/handlers.ts createToolHandler) -/

/-- The synthetic error result the handler builds in its catch block. -/
def errorResponse (msg : String) : ToolOutput :=
  ToolOutput.obj
    (ContentField.arr [⟨some "text", some ("Error executing tool: " ++ msg)⟩]) true

/-- Translation of the closure returned by createToolHandler, applied to
the outcome of the backend tool call: a successful result is moderated; an
error thrown by the call, or by that first moderation, is caught, rendered
as a synthetic text error result, and routed through the gate again.  An
error raised by that second moderation is not caught. -/
def toolHandler (classify : Classifier) (apiKey : Option String)
    (enableGuardApi : Bool) (callResult : Except String ToolOutput) :
    Except String ToolOutput :=
  match callResult with
  | .ok result =>
    match moderateToolOutput classify apiKey enableGuardApi result with
    | .ok moderated => .ok moderated
    | .error e => moderateToolOutput classify apiKey enableGuardApi (errorResponse e)
  | .error msg => moderateToolOutput classify apiKey enableGuardApi (errorResponse msg)

/-! ## Name sanitization and published identifiers (src/client.ts) -/

/-- The regex replacement serverName.replace of one or more whitespace
characters by a single underscore, one pass with a flag recording whether
the previous character was part of a whitespace run. -/
def collapseWSAux : Bool → List Char → List Char
  | _, [] => []
  | prevWs, c :: rest =>
    if c.isWhitespace then
      if prevWs then collapseWSAux true rest
      else '_' :: collapseWSAux true rest
    else c :: collapseWSAux false rest

/-- serverName with each maximal whitespace run replaced by one underscore
(the sanitizedServerName of client.ts). -/
def sanitizeName (s : String) : String :=
  String.mk (collapseWSAux false s.data)

/-- String.prototype.toLowerCase modelled character by character (the
claims only exercise ASCII names). -/
def toLowerStr (s : String) : String :=
  String.mk (s.data.map Char.toLower)

/-- Published tool identifier (client.ts line 80): the sanitized server
name is additionally lowercased for tools. -/
def toolPublishedName (serverName toolName : String) : String :=
  toLowerStr (sanitizeName serverName) ++ "_" ++ toolName

/-- Published prompt identifier (client.ts line 110): the sanitized server
name is used as is, without lowercasing. -/
def promptPublishedName (serverName promptName : String) : String :=
  sanitizeName serverName ++ "_" ++ promptName

/-- Published resource identifier (client.ts line 160): the original
identifier is resource.name, falling back to resource.uri when the name is
absent or empty (JS ||). -/
def resourcePublishedName (serverName : String) (name : Option String)
    (uri : String) : String :=
  sanitizeName serverName ++ "_" ++
    (match name with
     | some n => if n == "" then uri else n
     | none => uri)

/-- A tool as listTools reports it: original name and raw JSON input
schema (description is never used for registration identity). -/
structure ToolDecl where
  name : String
  inputSchema : Json

/-- One declared prompt argument: an optional name (registered only when
truthy) and the required flag. -/
structure PromptArg where
  name : Option String
  required : Bool

/-- A prompt as listPrompts reports it; arguments is none when the field
is absent or not an array. -/
structure PromptDecl where
  name : String
  arguments : Option (List PromptArg)

/-- A resource as listResources reports it. -/
structure ResourceDecl where
  name : Option String
  uri : String

/-- The argument shape built for a prompt: each truthy-named argument
becomes a string field, optional unless marked required (client.ts lines
118-128; JS object assignment on a duplicate name is not exercised and is
modelled as appending in order). -/
def promptArgsShapeList : List PromptArg → List (String × Bool)
  | [] => []
  | a :: rest =>
    match a.name with
    | some n =>
      if n == "" then promptArgsShapeList rest
      else (n, !a.required) :: promptArgsShapeList rest
    | none => promptArgsShapeList rest

/-- Argument shape of a prompt declaration. -/
def promptArgsShape : Option (List PromptArg) → List (String × Bool)
  | none => []
  | some args => promptArgsShapeList args

/-- Whether a resource URI registers as a template: it contains both an
opening and a closing brace (client.ts line 165). -/
def resourceIsTemplate (uri : String) : Bool :=
  uri.contains (Char.ofNat 123) && uri.contains (Char.ofNat 125)

/-- What the aggregate McpServer has registered: tools with their
translated input shapes, prompts with their argument shapes, resources
with their template flag, each under its published identifier, in
registration order. -/
structure Registry where
  tools : List (String × ZodShape)
  prompts : List (String × List (String × Bool))
  resources : List (String × Bool)

/-- The loop of registerToolsForServer: each tool's schema is translated
and the tool registered under its published name.  A TypeError raised by
the translator propagates (nothing catches it inside
registerToolsForServer), but the server.registerTool calls already made
are not undone, so the registry built so far is kept alongside the raised
error's message (none = the loop completed). -/
def registerToolsLoop (serverName : String) :
    List ToolDecl → Registry → Registry × Option String
  | [], reg => (reg, none)
  | t :: ts, reg =>
    match convertJsonSchemaToZod t.inputSchema with
    | .error e => (reg, some e)
    | .ok shape =>
      registerToolsLoop serverName ts
        ⟨reg.tools ++ [(toolPublishedName serverName t.name, shape)],
         reg.prompts, reg.resources⟩

/-- Translation of registerToolsForServer: the listTools call (its outcome
is the first argument) is not protected by any try/catch, so an
enumeration failure, or a translator throw mid-loop, propagates to the
caller; registrations made before the throw persist. -/
def registerToolsForServer (toolsResult : Except String (List ToolDecl))
    (serverName : String) (reg : Registry) : Registry × Option String :=
  match toolsResult with
  | .error e => (reg, some e)
  | .ok ts => registerToolsLoop serverName ts reg

/-- Translation of registerPromptsForServer: the whole body is inside a
try/catch whose catch is empty, so an enumeration failure leaves the
registry unchanged. -/
def registerPromptsForServer (promptsResult : Except String (List PromptDecl))
    (serverName : String) (reg : Registry) : Registry :=
  match promptsResult with
  | .error _ => reg
  | .ok ps =>
    ⟨reg.tools,
     reg.prompts ++ ps.map
       (fun p => (promptPublishedName serverName p.name, promptArgsShape p.arguments)),
     reg.resources⟩

/-- Translation of registerResourcesForServer: like prompts, failures are
silently swallowed; each resource registers under its published name as a
template or a static resource. -/
def registerResourcesForServer (resResult : Except String (List ResourceDecl))
    (serverName : String) (reg : Registry) : Registry :=
  match resResult with
  | .error _ => reg
  | .ok rs =>
    ⟨reg.tools, reg.prompts,
     reg.resources ++ rs.map
       (fun r => (resourcePublishedName serverName r.name r.uri,
                  resourceIsTemplate r.uri))⟩

/-- A backend descriptor (types.ts ServerConfig): a local stdio server or
a remote HTTP server. -/
inductive ServerConfig where
  | stdio : String → String → List String → List (String × String) → ServerConfig
  | remote : String → String → ServerConfig

/-- The name field of a descriptor. -/
def ServerConfig.name : ServerConfig → String
  | .stdio n _ _ _ => n
  | .remote n _ => n

/-- The session kind a successful connection returns. -/
inductive Session where
  | stdio : Session
  | streamableHttp : Session
  | sse : Session
deriving DecidableEq

/-- Oracles for the three transport connection attempts: spawning a stdio
subprocess (command, args, merged environment), a StreamableHTTP connect
and an SSE connect against a URL; .error carries the raised error's
message. -/
structure TransportWorld where
  ambientEnv : List (String × String)
  stdioConnect : String → List String → List (String × String) → Except String Unit
  streamableHttpConnect : String → Except String Unit
  sseConnect : String → Except String Unit

/-- Translation of createClientConnection: a remote descriptor tries
StreamableHTTP first and falls back to SSE, combining both causes into one
error when both fail; a stdio descriptor spawns the command with the
ambient environment overlaid by the descriptor's env entries (later
entries shadow earlier ones on lookup), with a single attempt. -/
def createClientConnection (w : TransportWorld) :
    ServerConfig → Except String Session
  | .remote _ url =>
    match w.streamableHttpConnect url with
    | .ok _ => .ok .streamableHttp
    | .error e =>
      match w.sseConnect url with
      | .ok _ => .ok .sse
      | .error sseError =>
        .error ("Failed to connect to remote server " ++ url ++
          ": StreamableHTTP error: " ++ e ++ ", SSE error: " ++ sseError)
  | .stdio _ command args env =>
    match w.stdioConnect command args (w.ambientEnv ++ env) with
    | .ok _ => .ok .stdio
    | .error e => .error e

/-- Oracles for a whole gateway run: the transports plus the three
enumeration calls of a connected backend, keyed by the backend's name. -/
structure McpWorld where
  transport : TransportWorld
  listTools : String → Except String (List ToolDecl)
  listPrompts : String → Except String (List PromptDecl)
  listResources : String → Except String (List ResourceDecl)

/-- Translation of connectToServer: on a successful connection the client
is recorded and the three registration steps run in order; tools are
unprotected, so a throw in the tools step skips the remaining two steps
(the registrations it made before throwing persist), caught by the
surrounding try/catch, which also swallows connection failures (logging
only). -/
def connectToServer (w : McpWorld) (config : ServerConfig)
    (clients : List String) (reg : Registry) : List String × Registry :=
  match createClientConnection w.transport config with
  | .error _ => (clients, reg)
  | .ok _ =>
    let clients2 := clients ++ [config.name]
    match registerToolsForServer (w.listTools config.name) config.name reg with
    | (reg1, some _) => (clients2, reg1)
    | (reg1, none) =>
      let reg2 := registerPromptsForServer (w.listPrompts config.name) config.name reg1
      let reg3 := registerResourcesForServer (w.listResources config.name) config.name reg2
      (clients2, reg3)

/-- Translation of connectToAllServers: sequential, in list order. -/
def connectToAllServers (w : McpWorld) (configs : List ServerConfig)
    (clients : List String) (reg : Registry) : List String × Registry :=
  match configs with
  | [] => (clients, reg)
  | c :: rest =>
    let p := connectToServer w c clients reg
    connectToAllServers w rest p.1 p.2

/-! ## Predicates on classifier outcomes used by the moderation theorems -/

/-- The classifier succeeds without flagging on any text this item would
submit. -/
def itemCleanFor (classify : Classifier) (it : ContentItem) : Prop :=
  ∀ t, it.type = some "text" → it.text = some t →
    ∃ r, classify t = .ok r ∧ flaggedOf r = false

/-- The classifier succeeds (flagged or not) on any text this item would
submit. -/
def itemOkFor (classify : Classifier) (it : ContentItem) : Prop :=
  ∀ t, it.type = some "text" → it.text = some t → ∃ r, classify t = .ok r

/-! ## Helper lemmas on the moderation loop -/

theorem item_cases (item : ContentItem) :
    (∃ t, item.type = some "text" ∧ item.text = some t) ∨
    (∀ t, ¬(item.type = some "text" ∧ item.text = some t)) := by
  rcases item with ⟨ty, tx⟩
  rcases tx with _ | t
  · right; rintro u ⟨_, h⟩; cases h
  · rcases ty with _ | s
    · right; rintro u ⟨h, _⟩; cases h
    · by_cases hs : s = "text"
      · subst hs; left; exact ⟨t, rfl, rfl⟩
      · right; rintro u ⟨h, _⟩
        injection h with h2
        exact hs h2

theorem moderateItems_cons_text {item : ContentItem} {t : String}
    (h1 : item.type = some "text") (h2 : item.text = some t)
    (classify : Classifier) (apiKey : Option String) (enable : Bool)
    (output : ToolOutput) (rest : List ContentItem) :
    moderateItems classify apiKey enable output (item :: rest) =
      (if enable && keyTruthy apiKey then
        match classify t with
        | .error e => .error ("Guard API call failed: " ++ e)
        | .ok r =>
          if flaggedOf r then .ok BLOCKED_RESPONSE
          else moderateItems classify apiKey enable output rest
      else moderateItems classify apiKey enable output rest) := by
  rcases item with ⟨ty, tx⟩
  simp only at h1 h2
  subst h1; subst h2
  rfl

theorem moderateItems_cons_skip {item : ContentItem}
    (h : ∀ t, ¬(item.type = some "text" ∧ item.text = some t))
    (classify : Classifier) (apiKey : Option String) (enable : Bool)
    (output : ToolOutput) (rest : List ContentItem) :
    moderateItems classify apiKey enable output (item :: rest) =
      moderateItems classify apiKey enable output rest := by
  simp only [moderateItems]
  split
  · next t h1 h2 => exact absurd ⟨h1, h2⟩ (h t)
  · rfl

theorem moderationCallsItems_cons_text {item : ContentItem} {t : String}
    (h1 : item.type = some "text") (h2 : item.text = some t)
    (classify : Classifier) (apiKey : Option String) (enable : Bool)
    (rest : List ContentItem) :
    moderationCallsItems classify apiKey enable (item :: rest) =
      (if enable && keyTruthy apiKey then
        match classify t with
        | .error _ => [t]
        | .ok r =>
          if flaggedOf r then [t]
          else t :: moderationCallsItems classify apiKey enable rest
      else moderationCallsItems classify apiKey enable rest) := by
  rcases item with ⟨ty, tx⟩
  simp only at h1 h2
  subst h1; subst h2
  rfl

theorem moderationCallsItems_cons_skip {item : ContentItem}
    (h : ∀ t, ¬(item.type = some "text" ∧ item.text = some t))
    (classify : Classifier) (apiKey : Option String) (enable : Bool)
    (rest : List ContentItem) :
    moderationCallsItems classify apiKey enable (item :: rest) =
      moderationCallsItems classify apiKey enable rest := by
  simp only [moderationCallsItems]
  split
  · next t h1 h2 => exact absurd ⟨h1, h2⟩ (h t)
  · rfl

theorem moderateItems_disabled (classify : Classifier) (apiKey : Option String)
    (enable : Bool) (output : ToolOutput)
    (h : (enable && keyTruthy apiKey) = false) (items : List ContentItem) :
    moderateItems classify apiKey enable output items = .ok output := by
  induction items with
  | nil => rfl
  | cons item rest ih =>
    rcases item_cases item with ⟨t, h1, h2⟩ | hskip
    · rw [moderateItems_cons_text h1 h2, h]
      simpa using ih
    · rw [moderateItems_cons_skip hskip]
      exact ih

theorem moderationCallsItems_disabled (classify : Classifier)
    (apiKey : Option String) (enable : Bool)
    (h : (enable && keyTruthy apiKey) = false) (items : List ContentItem) :
    moderationCallsItems classify apiKey enable items = [] := by
  induction items with
  | nil => rfl
  | cons item rest ih =>
    rcases item_cases item with ⟨t, h1, h2⟩ | hskip
    · rw [moderationCallsItems_cons_text h1 h2, h]
      simpa using ih
    · rw [moderationCallsItems_cons_skip hskip]
      exact ih

theorem moderateItems_clean (classify : Classifier) (apiKey : Option String)
    (output : ToolOutput) (hkey : keyTruthy apiKey = true)
    (items : List ContentItem)
    (hall : ∀ it ∈ items, itemCleanFor classify it) :
    moderateItems classify apiKey true output items = .ok output := by
  revert hall
  induction items with
  | nil => intro _; rfl
  | cons item rest ih =>
    intro hall
    rcases item_cases item with ⟨t, h1, h2⟩ | hskip
    · obtain ⟨r, hr, hf⟩ := hall item (List.mem_cons_self _ _) t h1 h2
      rw [moderateItems_cons_text h1 h2, hkey, hr]
      simp only [Bool.and_self, if_true, hf, Bool.false_eq_true, if_false]
      exact ih (fun it hit => hall it (List.mem_cons_of_mem _ hit))
    · rw [moderateItems_cons_skip hskip]
      exact ih (fun it hit => hall it (List.mem_cons_of_mem _ hit))

theorem moderateItems_blocked_first (classify : Classifier)
    (apiKey : Option String) (output : ToolOutput)
    (hkey : keyTruthy apiKey = true) (pre : List ContentItem)
    (item : ContentItem) (post : List ContentItem) (t : String)
    (r : GuardApiResponse)
    (hpre : ∀ it ∈ pre, itemCleanFor classify it)
    (h1 : item.type = some "text") (h2 : item.text = some t)
    (hr : classify t = .ok r) (hf : flaggedOf r = true) :
    moderateItems classify apiKey true output (pre ++ item :: post) =
      .ok BLOCKED_RESPONSE := by
  revert hpre
  induction pre with
  | nil =>
    intro _
    rw [List.nil_append, moderateItems_cons_text h1 h2, hkey, hr]
    simp [hf]
  | cons p pre ih =>
    intro hpre
    rcases item_cases p with ⟨u, hp1, hp2⟩ | hskip
    · obtain ⟨r2, hr2, hf2⟩ := hpre p (List.mem_cons_self _ _) u hp1 hp2
      rw [List.cons_append, moderateItems_cons_text hp1 hp2, hkey, hr2]
      simp only [Bool.and_self, if_true, hf2, Bool.false_eq_true, if_false]
      exact ih (fun it hit => hpre it (List.mem_cons_of_mem _ hit))
    · rw [List.cons_append, moderateItems_cons_skip hskip]
      exact ih (fun it hit => hpre it (List.mem_cons_of_mem _ hit))

theorem moderateItems_error_first (classify : Classifier)
    (apiKey : Option String) (output : ToolOutput)
    (hkey : keyTruthy apiKey = true) (pre : List ContentItem)
    (item : ContentItem) (post : List ContentItem) (t e : String)
    (hpre : ∀ it ∈ pre, itemCleanFor classify it)
    (h1 : item.type = some "text") (h2 : item.text = some t)
    (hr : classify t = .error e) :
    moderateItems classify apiKey true output (pre ++ item :: post) =
      .error ("Guard API call failed: " ++ e) := by
  revert hpre
  induction pre with
  | nil =>
    intro _
    rw [List.nil_append, moderateItems_cons_text h1 h2, hkey, hr]
    simp
  | cons p pre ih =>
    intro hpre
    rcases item_cases p with ⟨u, hp1, hp2⟩ | hskip
    · obtain ⟨r2, hr2, hf2⟩ := hpre p (List.mem_cons_self _ _) u hp1 hp2
      rw [List.cons_append, moderateItems_cons_text hp1 hp2, hkey, hr2]
      simp only [Bool.and_self, if_true, hf2, Bool.false_eq_true, if_false]
      exact ih (fun it hit => hpre it (List.mem_cons_of_mem _ hit))
    · rw [List.cons_append, moderateItems_cons_skip hskip]
      exact ih (fun it hit => hpre it (List.mem_cons_of_mem _ hit))

theorem moderateItems_some_flagged (classify : Classifier)
    (apiKey : Option String) (output : ToolOutput)
    (hkey : keyTruthy apiKey = true) (items : List ContentItem)
    (hall : ∀ it ∈ items, itemOkFor classify it)
    (hex : ∃ it ∈ items, ∃ t r, it.type = some "text" ∧ it.text = some t ∧
      classify t = .ok r ∧ flaggedOf r = true) :
    moderateItems classify apiKey true output items = .ok BLOCKED_RESPONSE := by
  revert hall hex
  induction items with
  | nil =>
    rintro _ ⟨it, hit, _⟩
    cases hit
  | cons item rest ih =>
    rintro hall ⟨it, hit, t2, r2, ht2, hx2, hc2, hf2⟩
    rcases item_cases item with ⟨t, h1, h2⟩ | hskip
    · obtain ⟨r, hr⟩ := hall item (List.mem_cons_self _ _) t h1 h2
      rw [moderateItems_cons_text h1 h2, hkey, hr]
      by_cases hf : flaggedOf r = true
      · simp [hf]
      · simp only [Bool.and_self, if_true, hf, Bool.false_eq_true, if_false]
        rcases List.mem_cons.mp hit with rfl | hrest
        · rw [h2] at hx2
          injection hx2 with hx3
          subst hx3
          rw [hr] at hc2
          injection hc2 with hc3
          subst hc3
          exact absurd hf2 hf
        · exact ih (fun i hi => hall i (List.mem_cons_of_mem _ hi))
            ⟨it, hrest, t2, r2, ht2, hx2, hc2, hf2⟩
    · rw [moderateItems_cons_skip hskip]
      rcases List.mem_cons.mp hit with rfl | hrest
      · exact absurd ⟨ht2, hx2⟩ (hskip t2)
      · exact ih (fun i hi => hall i (List.mem_cons_of_mem _ hi))
          ⟨it, hrest, t2, r2, ht2, hx2, hc2, hf2⟩

theorem moderateItems_allError (classify : Classifier)
    (apiKey : Option String) (output : ToolOutput)
    (hkey : keyTruthy apiKey = true)
    (hcl : ∀ t, ∃ m, classify t = .error m) (items : List ContentItem)
    (hex : ∃ it ∈ items, it.type = some "text" ∧ ∃ t, it.text = some t) :
    ∃ m, moderateItems classify apiKey true output items = .error m := by
  revert hex
  induction items with
  | nil =>
    rintro ⟨it, hit, _⟩
    cases hit
  | cons item rest ih =>
    rintro ⟨it, hit, ht2, t2, hx2⟩
    rcases item_cases item with ⟨t, h1, h2⟩ | hskip
    · obtain ⟨m, hm⟩ := hcl t
      rw [moderateItems_cons_text h1 h2, hkey, hm]
      exact ⟨"Guard API call failed: " ++ m, by simp⟩
    · rw [moderateItems_cons_skip hskip]
      rcases List.mem_cons.mp hit with rfl | hrest
      · exact absurd ⟨ht2, hx2⟩ (hskip t2)
      · exact ih ⟨it, hrest, ht2, t2, hx2⟩

theorem moderationCallsItems_sub (classify : Classifier)
    (apiKey : Option String) (enable : Bool) (items : List ContentItem)
    (t : String)
    (ht : t ∈ moderationCallsItems classify apiKey enable items) :
    ∃ it ∈ items, it.type = some "text" ∧ it.text = some t := by
  revert ht
  induction items with
  | nil => intro ht; cases ht
  | cons item rest ih =>
    intro ht
    rcases item_cases item with ⟨u, h1, h2⟩ | hskip
    · rw [moderationCallsItems_cons_text h1 h2] at ht
      split at ht
      · split at ht
        · rw [List.mem_singleton] at ht
          subst ht
          exact ⟨item, List.mem_cons_self _ _, h1, h2⟩
        · split at ht
          · rw [List.mem_singleton] at ht
            subst ht
            exact ⟨item, List.mem_cons_self _ _, h1, h2⟩
          · rcases List.mem_cons.mp ht with rfl | h3
            · exact ⟨item, List.mem_cons_self _ _, h1, h2⟩
            · obtain ⟨it, hmem, hp⟩ := ih h3
              exact ⟨it, List.mem_cons_of_mem _ hmem, hp⟩
      · obtain ⟨it, hmem, hp⟩ := ih ht
        exact ⟨it, List.mem_cons_of_mem _ hmem, hp⟩
    · rw [moderationCallsItems_cons_skip hskip] at ht
      obtain ⟨it, hmem, hp⟩ := ih ht
      exact ⟨it, List.mem_cons_of_mem _ hmem, hp⟩

/-! ## Concrete classifiers and outputs used by the witnesses -/

/-- A classifier whose heuristic flag is always set. -/
def flagAllClassifier : Classifier := fun _ => .ok ⟨some ⟨true⟩, none⟩

/-- A classifier that always answers 2xx with a body carrying neither
flag field. -/
def noFlagsClassifier : Classifier := fun _ => .ok ⟨none, none⟩

/-- A classifier whose calls always fail (unreachable service). -/
def failAllClassifier : Classifier := fun _ => .error "network down"

/-- A one-segment text content list. -/
def sampleItems : List ContentItem := [⟨some "text", some "hello"⟩]

/-- A tool result carrying one text segment. -/
def sampleOut : ToolOutput := ToolOutput.obj (ContentField.arr sampleItems) false

/-! ## Claim theorems: the moderation gate -/

/-- C1: with moderation enabled and a credential supplied, for a tool
result whose content is an array: if the classifier reports either flag
true for some text segment (all classification calls succeeding), the
gate returns exactly the canonical BLOCKED_RESPONSE; evaluation
short-circuits at the first flagged segment (the items after it are
wholly unconstrained); and if both flags are false for every text
segment, the input is returned unchanged.  BLOCKED_RESPONSE is the fixed
text marked as an error. -/
theorem moderation_blocks_flagged_and_passes_clean
    (classify : Classifier) (apiKey : Option String) (isErr : Bool)
    (hkey : keyTruthy apiKey = true) :
    (∀ items, (∀ it ∈ items, itemOkFor classify it) →
      (∃ it ∈ items, ∃ t r, it.type = some "text" ∧ it.text = some t ∧
        classify t = .ok r ∧ flaggedOf r = true) →
      moderateToolOutput classify apiKey true
          (ToolOutput.obj (ContentField.arr items) isErr) = .ok BLOCKED_RESPONSE) ∧
    (∀ pre item post t r, (∀ it ∈ pre, itemCleanFor classify it) →
      item.type = some "text" → item.text = some t →
      classify t = .ok r → flaggedOf r = true →
      moderateToolOutput classify apiKey true
          (ToolOutput.obj (ContentField.arr (pre ++ item :: post)) isErr)
        = .ok BLOCKED_RESPONSE) ∧
    (∀ items, (∀ it ∈ items, itemCleanFor classify it) →
      moderateToolOutput classify apiKey true
          (ToolOutput.obj (ContentField.arr items) isErr)
        = .ok (ToolOutput.obj (ContentField.arr items) isErr)) ∧
    BLOCKED_RESPONSE =
      ToolOutput.obj (ContentField.arr [⟨some "text", some blockedText⟩]) true := by
  refine ⟨?_, ?_, ?_, rfl⟩
  · intro items hall hex
    exact moderateItems_some_flagged classify apiKey _ hkey items hall hex
  · intro pre item post t r hpre h1 h2 hr hf
    exact moderateItems_blocked_first classify apiKey _ hkey pre item post t r
      hpre h1 h2 hr hf
  · intro items hall
    exact moderateItems_clean classify apiKey _ hkey items hall

theorem moderation_blocks_flagged_and_passes_clean_witness :
    moderateToolOutput flagAllClassifier (some "key") true sampleOut
      = .ok BLOCKED_RESPONSE ∧
    moderateToolOutput noFlagsClassifier (some "key") true sampleOut
      = .ok sampleOut := by
  constructor
  · exact (moderation_blocks_flagged_and_passes_clean flagAllClassifier
        (some "key") false rfl).2.1 [] ⟨some "text", some "hello"⟩ [] "hello"
        ⟨some ⟨true⟩, none⟩
        (fun it hit => absurd hit (List.not_mem_nil it)) rfl rfl rfl rfl
  · exact (moderation_blocks_flagged_and_passes_clean noFlagsClassifier
        (some "key") false rfl).2.2.1 sampleItems
        (fun it hit t h1 h2 => ⟨⟨none, none⟩, rfl, rfl⟩)

/-- C2: with moderation enabled and a credential supplied, a failing
classification call (network error, non-2xx, timeout) makes
moderateToolOutput raise a hard error, never any ordinary result; and for
an unreachable classifier the whole tool invocation (the handler, both on
a successful backend call with a text segment and on a failed backend
call) rejects with a hard error rather than passing the unmoderated
result through. -/
theorem classifier_failure_is_hard_error
    (classify : Classifier) (apiKey : Option String)
    (hkey : keyTruthy apiKey = true) :
    (∀ isErr pre item post t e, (∀ it ∈ pre, itemCleanFor classify it) →
      item.type = some "text" → item.text = some t →
      classify t = .error e →
      moderateToolOutput classify apiKey true
          (ToolOutput.obj (ContentField.arr (pre ++ item :: post)) isErr)
        = .error ("Guard API call failed: " ++ e) ∧
      ∀ out2, moderateToolOutput classify apiKey true
          (ToolOutput.obj (ContentField.arr (pre ++ item :: post)) isErr)
        ≠ .ok out2) ∧
    ((∀ t, ∃ m, classify t = .error m) →
      (∀ isErr items,
        (∃ it ∈ items, it.type = some "text" ∧ ∃ t, it.text = some t) →
        ∃ m, toolHandler classify apiKey true
            (.ok (ToolOutput.obj (ContentField.arr items) isErr)) = .error m) ∧
      (∀ msg, ∃ m, toolHandler classify apiKey true (.error msg) = .error m)) := by
  constructor
  · intro isErr pre item post t e hpre h1 h2 hr
    have hmain := moderateItems_error_first classify apiKey
      (ToolOutput.obj (ContentField.arr (pre ++ item :: post)) isErr) hkey
      pre item post t e hpre h1 h2 hr
    refine ⟨hmain, ?_⟩
    intro out2 hbad
    rw [show moderateToolOutput classify apiKey true
        (ToolOutput.obj (ContentField.arr (pre ++ item :: post)) isErr) =
        moderateItems classify apiKey true
          (ToolOutput.obj (ContentField.arr (pre ++ item :: post)) isErr)
          (pre ++ item :: post) from rfl, hmain] at hbad
    cases hbad
  · intro hcl
    have herr : ∀ msg, ∃ m,
        moderateToolOutput classify apiKey true (errorResponse msg) = .error m := by
      intro msg
      exact moderateItems_allError classify apiKey (errorResponse msg) hkey hcl
        [⟨some "text", some ("Error executing tool: " ++ msg)⟩]
        ⟨⟨some "text", some ("Error executing tool: " ++ msg)⟩,
          List.mem_cons_self _ _, rfl, _, rfl⟩
    constructor
    · intro isErr items hex
      obtain ⟨m1, hm1⟩ := moderateItems_allError classify apiKey
        (ToolOutput.obj (ContentField.arr items) isErr) hkey hcl items hex
      obtain ⟨m2, hm2⟩ := herr m1
      refine ⟨m2, ?_⟩
      simp only [toolHandler]
      rw [show moderateToolOutput classify apiKey true
          (ToolOutput.obj (ContentField.arr items) isErr) =
          moderateItems classify apiKey true
            (ToolOutput.obj (ContentField.arr items) isErr) items from rfl, hm1]
      exact hm2
    · intro msg
      obtain ⟨m, hm⟩ := herr msg
      exact ⟨m, hm⟩

theorem classifier_failure_is_hard_error_witness :
    moderateToolOutput failAllClassifier (some "key") true sampleOut
      = .error "Guard API call failed: network down" ∧
    (∃ m, toolHandler failAllClassifier (some "key") true (.ok sampleOut)
      = .error m) := by
  constructor
  · exact ((classifier_failure_is_hard_error failAllClassifier (some "key")
        rfl).1 false [] ⟨some "text", some "hello"⟩ [] "hello" "network down"
        (fun it hit => absurd hit (List.not_mem_nil it)) rfl rfl rfl).1
  · exact ((classifier_failure_is_hard_error failAllClassifier (some "key")
        rfl).2 (fun _ => ⟨"network down", rfl⟩)).1 false sampleItems
        ⟨⟨some "text", some "hello"⟩, List.mem_cons_self _ _, rfl, "hello", rfl⟩

/-- C3: when moderation is disabled, or enabled without a truthy
credential at call time, the gate is the identity on every tool result and
submits no text to the classifier. -/
theorem moderation_disabled_or_uncredentialed_identity
    (classify : Classifier) (apiKey : Option String) (enableGuardApi : Bool)
    (output : ToolOutput)
    (h : enableGuardApi = false ∨ keyTruthy apiKey = false) :
    moderateToolOutput classify apiKey enableGuardApi output = .ok output ∧
    moderationCalls classify apiKey enableGuardApi output = [] := by
  have hand : (enableGuardApi && keyTruthy apiKey) = false := by
    rcases h with h | h <;> simp [h]
  cases output with
  | falsy => exact ⟨rfl, rfl⟩
  | obj content isErr =>
    cases content with
    | absent => exact ⟨rfl, rfl⟩
    | notArray => exact ⟨rfl, rfl⟩
    | arr items =>
      exact ⟨moderateItems_disabled classify apiKey enableGuardApi _ hand items,
        moderationCallsItems_disabled classify apiKey enableGuardApi hand items⟩

theorem moderation_disabled_or_uncredentialed_identity_witness :
    moderateToolOutput flagAllClassifier (some "key") false sampleOut
      = .ok sampleOut ∧
    moderationCalls flagAllClassifier (some "key") false sampleOut = [] :=
  moderation_disabled_or_uncredentialed_identity flagAllClassifier (some "key")
    false sampleOut (Or.inl rfl)

/-- C9: even with moderation enabled and a credential supplied, an output
that is falsy or whose content field is absent or not an array is returned
unchanged with no classification call; and every text ever submitted to
the classifier is the text of a content item with type "text" and a string
text field. -/
theorem non_array_and_non_text_never_classified
    (classify : Classifier) (apiKey : Option String) (enable : Bool) :
    (∀ output, contentNotArray output = true →
      moderateToolOutput classify apiKey enable output = .ok output ∧
      moderationCalls classify apiKey enable output = []) ∧
    (∀ output t, t ∈ moderationCalls classify apiKey enable output →
      ∃ it ∈ itemsOf output, it.type = some "text" ∧ it.text = some t) := by
  constructor
  · intro output hna
    cases output with
    | falsy => exact ⟨rfl, rfl⟩
    | obj content isErr =>
      cases content with
      | absent => exact ⟨rfl, rfl⟩
      | notArray => exact ⟨rfl, rfl⟩
      | arr items => cases hna
  · intro output t ht
    cases output with
    | falsy => cases ht
    | obj content isErr =>
      cases content with
      | absent => cases ht
      | notArray => cases ht
      | arr items => exact moderationCallsItems_sub classify apiKey enable items t ht

theorem non_array_and_non_text_never_classified_witness :
    moderateToolOutput flagAllClassifier (some "key") true ToolOutput.falsy
      = .ok ToolOutput.falsy ∧
    moderationCalls flagAllClassifier (some "key") true ToolOutput.falsy = [] :=
  (non_array_and_non_text_never_classified flagAllClassifier (some "key")
    true).1 ToolOutput.falsy rfl

/-- C10: a 2xx response whose JSON body omits the injection_heuristic
field, the injection_guard field, or both, has each missing flag read as
false; in particular a classifier always answering with neither flag lets
every output pass through unmoderated. -/
theorem missing_guard_flags_default_false :
    flaggedOf ⟨none, none⟩ = false ∧
    (∀ g, flaggedOf ⟨none, some g⟩ = g.flagged) ∧
    (∀ g, flaggedOf ⟨some g, none⟩ = g.flagged) ∧
    (∀ (classify : Classifier) (apiKey : Option String) (output : ToolOutput),
      keyTruthy apiKey = true →
      (∀ t, classify t = .ok ⟨none, none⟩) →
      moderateToolOutput classify apiKey true output = .ok output) := by
  refine ⟨rfl, fun g => ?_, fun g => ?_, ?_⟩
  · simp [flaggedOf]
  · simp [flaggedOf]
  · intro classify apiKey output hkey hcl
    cases output with
    | falsy => rfl
    | obj content isErr =>
      cases content with
      | absent => rfl
      | notArray => rfl
      | arr items =>
        exact moderateItems_clean classify apiKey _ hkey items
          (fun it hit t h1 h2 => ⟨⟨none, none⟩, hcl t, rfl⟩)

theorem missing_guard_flags_default_false_witness :
    moderateToolOutput noFlagsClassifier (some "key") true sampleOut
      = .ok sampleOut :=
  missing_guard_flags_default_false.2.2.2 noFlagsClassifier (some "key")
    sampleOut rfl (fun _ => rfl)

/-! ## Safety of schema values for the translator (C7) -/

/-- Whether an Except is a success. -/
def exceptOk {α : Type} : Except String α → Bool
  | .ok _ => true
  | .error _ => false

/-- Whether the required field value supports the .includes call the code
makes on it when truthy: absent, falsy, an array, or a string. -/
def reqdSafe : Option Json → Bool
  | none => true
  | some r =>
    if r.truthy = false then true
    else
      match r with
      | .arr _ => true
      | .str _ => true
      | _ => false

/-- Safety of one object node: when it would enumerate properties (type
"object" and truthy properties), its required field supports .includes
and no enumerated property value is null. -/
def nodeSafe (j : Json) : Bool :=
  match j.getField "type", j.getField "properties" with
  | some (.str "object"), some props =>
    if props.truthy then
      reqdSafe (j.getField "required") &&
        (jsEntriesOf props).all (fun kv => !kv.2.isNull)
    else true
  | _, _ => true

mutual

/-- Conservative recursive safety of a value for the translator: nodeSafe
at every object node, checked through all object fields and array
elements. -/
def jsonSafe : Json → Bool
  | .obj fs => nodeSafe (.obj fs) && fieldsSafe fs
  | .arr xs => listSafe xs
  | _ => true

def fieldsSafe : List (String × Json) → Bool
  | [] => true
  | (_, v) :: fs => jsonSafe v && fieldsSafe fs

def listSafe : List Json → Bool
  | [] => true
  | x :: xs => jsonSafe x && listSafe xs

end

/-- A schema with a null property value: the source function throws on it
(reading prop.type), refuting totality. -/
def cexSchema : Json :=
  Json.obj [("type", Json.str "object"),
            ("properties", Json.obj [("a", Json.null)])]

/-- A well-formed object schema with a string property, a number property,
and an array-valued required field. -/
def safeSchema : Json :=
  Json.obj [("type", Json.str "object"),
            ("properties", Json.obj
              [("a", Json.obj [("type", Json.str "string")]),
               ("b", Json.obj [("type", Json.str "number")])]),
            ("required", Json.arr [Json.str "a"])]

/-! ## Helper lemmas for the translator (C7) -/

theorem isOk_exists {α : Type} (e : Except String α) (h : exceptOk e = true) :
    ∃ x, e = .ok x := by
  cases e with
  | ok x => exact ⟨x, rfl⟩
  | error msg => cases h

theorem optionalForKey_ok (reqd : Option Json) (key : String)
    (h : reqdSafe reqd = true) : ∃ b, optionalForKey reqd key = .ok b := by
  cases reqd with
  | none => exact ⟨true, rfl⟩
  | some r =>
    by_cases htr : r.truthy = false
    · exact ⟨true, by simp [optionalForKey, htr]⟩
    · cases r with
      | arr xs =>
        exact ⟨!jsArrayIncludesStr xs key, by simp [optionalForKey, htr]⟩
      | str s =>
        exact ⟨!jsStrIncludes s key, by simp [optionalForKey, htr]⟩
      | null => exact absurd rfl htr
      | bool b => simp [reqdSafe, htr] at h
      | num n => simp [reqdSafe, htr] at h
      | obj fs => simp [reqdSafe, htr] at h

theorem fieldsSafe_mem {fs : List (String × Json)} (h : fieldsSafe fs = true)
    {kv : String × Json} (hkv : kv ∈ fs) : jsonSafe kv.2 = true := by
  induction fs with
  | nil => cases hkv
  | cons hd tl ih =>
    obtain ⟨k, v⟩ := hd
    simp only [fieldsSafe, Bool.and_eq_true] at h
    rcases List.mem_cons.mp hkv with rfl | h2
    · exact h.1
    · exact ih h.2 h2

theorem listSafe_mem {xs : List Json} (h : listSafe xs = true)
    {x : Json} (hx : x ∈ xs) : jsonSafe x = true := by
  induction xs with
  | nil => cases hx
  | cons hd tl ih =>
    simp only [listSafe, Bool.and_eq_true] at h
    rcases List.mem_cons.mp hx with rfl | h2
    · exact h.1
    · exact ih h.2 h2

theorem jsonSafe_obj {fs : List (String × Json)}
    (h : jsonSafe (Json.obj fs) = true) :
    nodeSafe (Json.obj fs) = true ∧ fieldsSafe fs = true := by
  simpa [jsonSafe, Bool.and_eq_true] using h

theorem jsonSafe_arr {xs : List Json}
    (h : jsonSafe (Json.arr xs) = true) : listSafe xs = true := by
  simpa [jsonSafe] using h

theorem nodeSafe_props {j props : Json}
    (h : nodeSafe j = true)
    (h1 : j.getField "type" = some (Json.str "object"))
    (h2 : j.getField "properties" = some props)
    (hpt : props.truthy = true) :
    reqdSafe (j.getField "required") = true ∧
    ∀ kv ∈ jsEntriesOf props, kv.2.isNull = false := by
  simp only [nodeSafe, h1, h2, hpt, if_true, Bool.and_eq_true,
    List.all_eq_true, Bool.not_eq_eq_eq_not, Bool.not_true] at h
  exact h

theorem jsEntriesArr_mem {kv : String × Json} {i : Nat} {xs : List Json}
    (h : kv ∈ jsEntriesArr i xs) : kv.2 ∈ xs := by
  induction xs generalizing i with
  | nil => cases h
  | cons hd tl ih =>
    simp only [jsEntriesArr, List.mem_cons] at h
    rcases h with rfl | h2
    · exact List.mem_cons_self _ _
    · exact List.mem_cons_of_mem _ (ih h2)

theorem jsEntriesStr_shape {kv : String × Json} {i : Nat} {cs : List Char}
    (h : kv ∈ jsEntriesStr i cs) :
    ∃ c, kv.2 = Json.str (String.singleton c) := by
  induction cs generalizing i with
  | nil => cases h
  | cons hd tl ih =>
    simp only [jsEntriesStr, List.mem_cons] at h
    rcases h with rfl | h2
    · exact ⟨hd, rfl⟩
    · exact ih h2

theorem convert_nonObj (j : Json) (h : ∀ fs, j ≠ Json.obj fs) :
    convertJsonSchemaToZod j = .ok [] := by
  cases j with
  | obj fs => exact absurd rfl (h fs)
  | null => unfold convertJsonSchemaToZod; simp [Json.truthy, Json.isObjTypeof]
  | bool b => unfold convertJsonSchemaToZod; simp [Json.truthy, Json.isObjTypeof]
  | num n => unfold convertJsonSchemaToZod; simp [Json.truthy, Json.isObjTypeof]
  | str s => unfold convertJsonSchemaToZod; simp [Json.truthy, Json.isObjTypeof]
  | arr xs =>
    unfold convertJsonSchemaToZod
    simp [Json.truthy, Json.isObjTypeof, Json.getField]

theorem convertProps_isOk (n : Nat) (reqd : Option Json)
    (hreqd : reqdSafe reqd = true) :
    ∀ (entries : List (String × Json)) (hb : ∀ kv ∈ entries, Json.size kv.2 < n),
      (∀ kv ∈ entries, kv.2.isNull = false) →
      (∀ kv ∈ entries, exceptOk (convertJsonSchemaToZod kv.2) = true) →
      exceptOk (convertProps n reqd entries hb) = true := by
  intro entries
  induction entries with
  | nil =>
    intro hb _ _
    unfold convertProps
    rfl
  | cons kv rest ih =>
    intro hb hnull hIH
    obtain ⟨key, prop⟩ := kv
    have hpn : prop.isNull = false := hnull (key, prop) (List.mem_cons_self _ _)
    obtain ⟨s2, hs2⟩ := isOk_exists _ (hIH (key, prop) (List.mem_cons_self _ _))
    obtain ⟨b, hob⟩ := optionalForKey_ok reqd key hreqd
    have hrest := ih (fun kv2 h2 => hb kv2 (List.mem_cons_of_mem _ h2))
      (fun kv2 h2 => hnull kv2 (List.mem_cons_of_mem _ h2))
      (fun kv2 h2 => hIH kv2 (List.mem_cons_of_mem _ h2))
    obtain ⟨shape2, hr2⟩ := isOk_exists _ hrest
    unfold convertProps
    simp only [hpn, Bool.false_eq_true, if_false, hs2, hob, hr2]
    split
    · next tyE2 e2 heq2 => split at heq2 <;> exact Except.noConfusion heq2
    · rfl

theorem convert_isOk_of_safe :
    ∀ (N : Nat) (j : Json), Json.size j ≤ N → jsonSafe j = true →
      exceptOk (convertJsonSchemaToZod j) = true := by
  intro N
  induction N with
  | zero =>
    intro j hsz _
    exact absurd hsz (by have := Json.size_pos j; omega)
  | succ N ih =>
    intro j hsz hsafe
    cases j with
    | null => rw [convert_nonObj _ (fun fs h => Json.noConfusion h)]; rfl
    | bool b => rw [convert_nonObj _ (fun fs h => Json.noConfusion h)]; rfl
    | num q => rw [convert_nonObj _ (fun fs h => Json.noConfusion h)]; rfl
    | str s => rw [convert_nonObj _ (fun fs h => Json.noConfusion h)]; rfl
    | arr xs => rw [convert_nonObj _ (fun fs h => Json.noConfusion h)]; rfl
    | obj fs =>
      obtain ⟨hnode, hfields⟩ := jsonSafe_obj hsafe
      unfold convertJsonSchemaToZod
      rw [if_neg (by simp [Json.truthy, Json.isObjTypeof])]
      split
      · next props heq1 heq2 =>
        by_cases hpt : props.truthy = true
        · rw [if_pos hpt]
          obtain ⟨hreqd, hnull⟩ := nodeSafe_props hnode heq1 heq2 hpt
          obtain ⟨kvp, hkvp, hkvpe⟩ :=
            lookupField_mem (show lookupField fs "properties" = some props from heq2)
          have hsafep : jsonSafe props = true := hkvpe ▸ fieldsSafe_mem hfields hkvp
          have hszp : Json.size props < Json.size (Json.obj fs) :=
            Json.getField_size heq2
          have hIH : ∀ kv ∈ jsEntriesOf props,
              exceptOk (convertJsonSchemaToZod kv.2) = true := by
            intro kv hkv
            have hszkv := jsEntriesOf_size hkv
            cases props with
            | obj fs2 =>
              have hsafekv : jsonSafe kv.2 = true :=
                fieldsSafe_mem (jsonSafe_obj hsafep).2 (show kv ∈ fs2 from hkv)
              exact ih kv.2 (by omega) hsafekv
            | arr xs2 =>
              have hsafekv : jsonSafe kv.2 = true :=
                listSafe_mem (jsonSafe_arr hsafep) (jsEntriesArr_mem hkv)
              exact ih kv.2 (by omega) hsafekv
            | str s2 =>
              obtain ⟨c, hc⟩ := jsEntriesStr_shape hkv
              rw [hc, convert_nonObj _ (fun fs h => Json.noConfusion h)]
              rfl
            | null => simp [jsEntriesOf] at hkv
            | bool b2 => simp [jsEntriesOf] at hkv
            | num q2 => simp [jsEntriesOf] at hkv
          exact convertProps_isOk _ _ hreqd _ _ hnull hIH
        · rw [if_neg hpt]
          rfl
      · rfl

/-! ## Claim theorems: the schema translator (C7) -/

/-- C7 counterexample: the translator is not total — on an object schema
whose properties carry a null value, the source throws a TypeError
(reading .type of null), modelled as the error result here. -/
theorem schema_translator_raises_on_null_property_cex :
    convertJsonSchemaToZod cexSchema
      = .error "TypeError: Cannot read properties of null" := by
  unfold convertJsonSchemaToZod convertProps
  rfl

/-- C7 amended: the translator never raises on inputs that are free (at
every nesting level) of null property values and of truthy required
fields that are neither arrays nor strings; any falsy or non-object input
yields the empty shape, as does any object schema whose type is not
"object" or whose properties field is absent or falsy. -/
theorem schema_translator_total_amended :
    (∀ j, jsonSafe j = true → ∃ shape, convertJsonSchemaToZod j = .ok shape) ∧
    (∀ j, j.truthy = false ∨ j.isObjTypeof = false →
      convertJsonSchemaToZod j = .ok []) ∧
    (∀ j, j.getField "type" ≠ some (Json.str "object") →
      convertJsonSchemaToZod j = .ok []) ∧
    (∀ j props, j.getField "properties" = some props → props.truthy = false →
      convertJsonSchemaToZod j = .ok []) ∧
    (∀ j, j.getField "properties" = none → convertJsonSchemaToZod j = .ok []) := by
  refine ⟨?_, ?_, ?_, ?_, ?_⟩
  · intro j hsafe
    exact isOk_exists _ (convert_isOk_of_safe (Json.size j) j le_rfl hsafe)
  · intro j h
    unfold convertJsonSchemaToZod
    rw [if_pos h]
  · intro j h
    unfold convertJsonSchemaToZod
    by_cases hft : j.truthy = false ∨ j.isObjTypeof = false
    · rw [if_pos hft]
    · rw [if_neg hft]
      split
      · next props heq1 heq2 => exact absurd heq1 h
      · rfl
  · intro j props hp hpt
    unfold convertJsonSchemaToZod
    by_cases hft : j.truthy = false ∨ j.isObjTypeof = false
    · rw [if_pos hft]
    · rw [if_neg hft]
      split
      · next props2 heq1 heq2 =>
        rw [hp] at heq2
        injection heq2 with heq3
        subst heq3
        rw [if_neg (by simp [hpt])]
      · rfl
  · intro j hp
    unfold convertJsonSchemaToZod
    by_cases hft : j.truthy = false ∨ j.isObjTypeof = false
    · rw [if_pos hft]
    · rw [if_neg hft]
      split
      · next props heq1 heq2 =>
        rw [hp] at heq2
        cases heq2
      · rfl

theorem schema_translator_total_amended_witness :
    jsonSafe safeSchema = true ∧
    (∃ shape, convertJsonSchemaToZod safeSchema = .ok shape) ∧
    convertJsonSchemaToZod Json.null = .ok [] ∧
    convertJsonSchemaToZod (Json.str "not a schema") = .ok [] :=
  ⟨by decide,
   schema_translator_total_amended.1 safeSchema (by decide),
   schema_translator_total_amended.2.1 Json.null (Or.inl rfl),
   schema_translator_total_amended.2.1 (Json.str "not a schema") (Or.inr rfl)⟩

/-! ## Concrete worlds used by the connection witnesses -/

/-- A remote world whose StreamableHTTP attempt fails and whose SSE
attempt succeeds. -/
def wFallback : TransportWorld :=
  ⟨[], fun _ _ _ => .ok (), fun _ => .error "http refused", fun _ => .ok ()⟩

/-- A remote world where both transport attempts fail. -/
def wBothFail : TransportWorld :=
  ⟨[], fun _ _ _ => .ok (),
   fun _ => .error "http refused", fun _ => .error "sse refused"⟩

/-- A world whose backends connect but whose listTools call fails while
prompts and resources would succeed with capabilities. -/
def cexWorld : McpWorld :=
  ⟨⟨[], fun _ _ _ => .ok (), fun _ => .error "x", fun _ => .error "x"⟩,
   fun _ => .error "listTools failed",
   fun _ => .ok [⟨"p1", none⟩],
   fun _ => .ok [⟨some "r1", "file:r1"⟩]⟩

/-- A world whose backends connect, tools enumerate empty, and only the
listPrompts call fails. -/
def cexWorld2 : McpWorld :=
  ⟨⟨[], fun _ _ _ => .ok (), fun _ => .error "x", fun _ => .error "x"⟩,
   fun _ => .ok [],
   fun _ => .error "listPrompts failed",
   fun _ => .ok [⟨some "r1", "file:r1"⟩]⟩

/-- A world whose backends connect and whose listTools reports one tool
with a harmless schema followed by one whose schema makes the translator
throw (a null property value), while prompts would succeed with a
capability. -/
def mixedToolsWorld : McpWorld :=
  ⟨⟨[], fun _ _ _ => .ok (), fun _ => .error "x", fun _ => .error "x"⟩,
   fun _ => .ok [⟨"good", Json.null⟩, ⟨"bad", cexSchema⟩],
   fun _ => .ok [⟨"p1", none⟩],
   fun _ => .ok []⟩

/-- A local descriptor. -/
def cexConfig : ServerConfig := .stdio "b" "cmd" [] []

/-- The registry before any backend registers. -/
def emptyRegistry : Registry := ⟨[], [], []⟩

/-- A world where spawning the executable bad-exe fails and every other
spawn, and all three enumerations, succeed (backend b exposing one
prompt). -/
def failSpawnWorld : McpWorld :=
  ⟨⟨[], fun cmd _ _ => if cmd == "bad-exe" then .error "spawn bad-exe ENOENT" else .ok (),
    fun _ => .error "x", fun _ => .error "x"⟩,
   fun _ => .ok [],
   fun _ => .ok [⟨"p", none⟩],
   fun _ => .ok []⟩

/-! ## Helper lemmas on name sanitization and registration -/

theorem registerToolsLoop_frame (serverName : String) :
    ∀ (ts : List ToolDecl) (reg : Registry),
      (registerToolsLoop serverName ts reg).1.prompts = reg.prompts ∧
      (registerToolsLoop serverName ts reg).1.resources = reg.resources := by
  intro ts
  induction ts with
  | nil => intro reg; exact ⟨rfl, rfl⟩
  | cons t ts ih =>
    intro reg
    simp only [registerToolsLoop]
    split
    · exact ⟨rfl, rfl⟩
    · exact ih _

theorem registerToolsForServer_frame (toolsResult : Except String (List ToolDecl))
    (serverName : String) (reg : Registry) :
    (registerToolsForServer toolsResult serverName reg).1.prompts = reg.prompts ∧
    (registerToolsForServer toolsResult serverName reg).1.resources = reg.resources := by
  cases toolsResult with
  | error e => exact ⟨rfl, rfl⟩
  | ok ts => exact registerToolsLoop_frame serverName ts reg

theorem registerPromptsForServer_ok_nil (serverName : String) (reg : Registry) :
    registerPromptsForServer (.ok []) serverName reg = reg := by
  simp [registerPromptsForServer]

theorem registerResourcesForServer_ok_nil (serverName : String) (reg : Registry) :
    registerResourcesForServer (.ok []) serverName reg = reg := by
  simp [registerResourcesForServer]

/-! ## Claim theorems: published identifiers (C5) -/

/-- C6: a remote descriptor first attempts StreamableHTTP; on any failure
it attempts SSE against the same endpoint, and an SSE success returns the
fallback session with no error; when both fail, the one combined error
text contains both underlying causes. -/
theorem remote_transport_fallback_and_combined_error
    (w : TransportWorld) (name url : String) :
    (w.streamableHttpConnect url = .ok () →
      createClientConnection w (.remote name url) = .ok Session.streamableHttp) ∧
    (∀ e1, w.streamableHttpConnect url = .error e1 →
      w.sseConnect url = .ok () →
      createClientConnection w (.remote name url) = .ok Session.sse) ∧
    (∀ e1 e2, w.streamableHttpConnect url = .error e1 →
      w.sseConnect url = .error e2 →
      createClientConnection w (.remote name url) =
        .error ("Failed to connect to remote server " ++ url ++
          ": StreamableHTTP error: " ++ e1 ++ ", SSE error: " ++ e2) ∧
      (∃ a b, "Failed to connect to remote server " ++ url ++
          ": StreamableHTTP error: " ++ e1 ++ ", SSE error: " ++ e2
          = a ++ e1 ++ b) ∧
      (∃ a, "Failed to connect to remote server " ++ url ++
          ": StreamableHTTP error: " ++ e1 ++ ", SSE error: " ++ e2
          = a ++ e2)) := by
  refine ⟨?_, ?_, ?_⟩
  · intro h
    simp [createClientConnection, h]
  · intro e1 h1 h2
    simp [createClientConnection, h1, h2]
  · intro e1 e2 h1 h2
    refine ⟨by simp [createClientConnection, h1, h2], ?_, ?_⟩
    · exact ⟨"Failed to connect to remote server " ++ url ++
        ": StreamableHTTP error: ", ", SSE error: " ++ e2,
        by simp [String.append_assoc]⟩
    · exact ⟨"Failed to connect to remote server " ++ url ++
        ": StreamableHTTP error: " ++ e1 ++ ", SSE error: ",
        by simp [String.append_assoc]⟩

theorem remote_transport_fallback_and_combined_error_witness :
    createClientConnection wFallback (.remote "r" "http:x") = .ok Session.sse ∧
    createClientConnection wBothFail (.remote "r" "http:x") =
      .error ("Failed to connect to remote server " ++ "http:x" ++
        ": StreamableHTTP error: " ++ "http refused" ++
        ", SSE error: " ++ "sse refused") := by
  constructor
  · exact (remote_transport_fallback_and_combined_error wFallback "r"
      "http:x").2.1 "http refused" rfl rfl
  · exact ((remote_transport_fallback_and_combined_error wBothFail "r"
      "http:x").2.2 "http refused" "sse refused" rfl rfl).1

/-! ## Claim theorems: capability registration (C4) -/

/-- C4 counterexample: with the connection succeeding, a failure of the
tools enumeration leaves the backend's prompts and resources unregistered
even though both enumerations would succeed with capabilities — the three
steps are not independent as claimed. -/
theorem tools_failure_skips_prompts_and_resources_cex :
    cexWorld.listPrompts "b" = .ok [⟨"p1", none⟩] ∧
    cexWorld.listResources "b" = .ok [⟨some "r1", "file:r1"⟩] ∧
    cexWorld.listTools "b" = .error "listTools failed" ∧
    createClientConnection cexWorld.transport cexConfig = .ok Session.stdio ∧
    connectToServer cexWorld cexConfig [] emptyRegistry = (["b"], emptyRegistry) ∧
    (connectToServer cexWorld cexConfig [] emptyRegistry).2.prompts = [] ∧
    (connectToServer cexWorld cexConfig [] emptyRegistry).2.resources = [] :=
  ⟨rfl, rfl, rfl, rfl, rfl, rfl, rfl⟩

/-- C4 amended: registration failure isolation holds between prompts and
resources — a failing prompts (resources) enumeration is swallowed and
leaves everything else exactly as an empty successful enumeration would —
but a throw in the tools step skips the prompts and resources steps for
that backend entirely: a listTools failure leaves the registry unchanged,
and any tools-step throw (enumeration failure or a schema-conversion
throw mid-loop, after which the tools already registered persist) leaves
that backend's prompts and resources unregistered, while the connected
client itself stays recorded. -/
theorem capability_kind_failure_isolation_amended
    (w : McpWorld) (config : ServerConfig) (clients : List String)
    (reg : Registry) (s : Session)
    (hconn : createClientConnection w.transport config = .ok s) :
    (∀ e, w.listTools config.name = .error e →
      connectToServer w config clients reg = (clients ++ [config.name], reg)) ∧
    (∀ reg1 e,
      registerToolsForServer (w.listTools config.name) config.name reg
        = (reg1, some e) →
      connectToServer w config clients reg = (clients ++ [config.name], reg1) ∧
      reg1.prompts = reg.prompts ∧ reg1.resources = reg.resources) ∧
    (∀ e, w.listPrompts config.name = .error e →
      connectToServer w config clients reg =
        connectToServer ⟨w.transport, w.listTools, fun _ => .ok [], w.listResources⟩
          config clients reg) ∧
    (∀ e, w.listResources config.name = .error e →
      connectToServer w config clients reg =
        connectToServer ⟨w.transport, w.listTools, w.listPrompts, fun _ => .ok []⟩
          config clients reg) := by
  refine ⟨?_, ?_, ?_, ?_⟩
  · intro e htools
    simp [connectToServer, hconn, registerToolsForServer, htools]
  · intro reg1 e hreg
    have hfr := registerToolsForServer_frame (w.listTools config.name)
      config.name reg
    rw [hreg] at hfr
    exact ⟨by simp [connectToServer, hconn, hreg], hfr.1, hfr.2⟩
  · intro e hp
    simp only [connectToServer, hconn, hp]
    rcases hreg : registerToolsForServer (w.listTools config.name) config.name reg
      with ⟨reg1, oerr⟩
    cases oerr with
    | some e2 => simp [hreg]
    | none => simp [hreg, registerPromptsForServer]
  · intro e hres
    simp only [connectToServer, hconn, hres]
    rcases hreg : registerToolsForServer (w.listTools config.name) config.name reg
      with ⟨reg1, oerr⟩
    cases oerr with
    | some e2 => simp [hreg]
    | none => simp [hreg, registerResourcesForServer]

theorem capability_kind_failure_isolation_amended_witness :
    connectToServer cexWorld cexConfig [] emptyRegistry
      = ([] ++ ["b"], emptyRegistry) ∧
    connectToServer mixedToolsWorld cexConfig [] emptyRegistry
      = ([] ++ ["b"], ⟨[("b_good", [])], [], []⟩) ∧
    connectToServer cexWorld2 cexConfig [] emptyRegistry =
      connectToServer
        ⟨cexWorld2.transport, cexWorld2.listTools, fun _ => .ok [],
         cexWorld2.listResources⟩ cexConfig [] emptyRegistry := by
  refine ⟨?_, ?_, ?_⟩
  · exact (capability_kind_failure_isolation_amended cexWorld cexConfig []
      emptyRegistry Session.stdio rfl).1 "listTools failed" rfl
  · have hnull : convertJsonSchemaToZod Json.null = .ok [] :=
      convert_nonObj _ (fun fs h => Json.noConfusion h)
    have hbad : convertJsonSchemaToZod cexSchema
        = .error "TypeError: Cannot read properties of null" := by
      unfold convertJsonSchemaToZod convertProps
      rfl
    have hreg : registerToolsForServer (mixedToolsWorld.listTools "b") "b"
        emptyRegistry
        = (⟨[("b_good", [])], [], []⟩,
           some "TypeError: Cannot read properties of null") := by
      show registerToolsLoop "b" [⟨"good", Json.null⟩, ⟨"bad", cexSchema⟩]
        emptyRegistry = _
      simp only [registerToolsLoop, hnull, hbad]
      rfl
    exact ((capability_kind_failure_isolation_amended mixedToolsWorld cexConfig
      [] emptyRegistry Session.stdio rfl).2.1 ⟨[("b_good", [])], [], []⟩
      "TypeError: Cannot read properties of null" hreg).1
  · exact (capability_kind_failure_isolation_amended cexWorld2 cexConfig []
      emptyRegistry Session.stdio rfl).2.2.1 "listPrompts failed" rfl

/-! ## Claim theorems: sequential connection and failure isolation (C8) -/

/-- C8: connection is sequential in list order; a backend whose connection
fails contributes nothing (clients and registry unchanged), and removing
it from the descriptor list leaves the aggregate outcome of all the other
backends exactly the same — its failure never affects what the remaining
descriptors register. -/
theorem failed_backend_contributes_nothing
    (w : McpWorld) (config : ServerConfig) (e : String)
    (hfail : createClientConnection w.transport config = .error e) :
    (∀ clients reg, connectToServer w config clients reg = (clients, reg)) ∧
    (∀ pre post clients reg,
      connectToAllServers w (pre ++ config :: post) clients reg =
        connectToAllServers w (pre ++ post) clients reg) := by
  have hzero : ∀ clients reg, connectToServer w config clients reg
      = (clients, reg) := by
    intro clients reg
    simp [connectToServer, hfail]
  refine ⟨hzero, ?_⟩
  intro pre post clients reg
  induction pre generalizing clients reg with
  | nil => simp [connectToAllServers, hzero]
  | cons c rest ih =>
    simp only [List.cons_append, connectToAllServers]
    exact ih _ _

theorem failed_backend_contributes_nothing_witness :
    connectToServer failSpawnWorld (.stdio "a" "bad-exe" [] []) [] emptyRegistry
      = ([], emptyRegistry) ∧
    connectToAllServers failSpawnWorld
        ([] ++ ServerConfig.stdio "a" "bad-exe" [] [] ::
          [ServerConfig.stdio "b" "good-exe" [] []]) [] emptyRegistry =
      connectToAllServers failSpawnWorld
        ([] ++ [ServerConfig.stdio "b" "good-exe" [] []]) [] emptyRegistry ∧
    connectToAllServers failSpawnWorld
        [ServerConfig.stdio "a" "bad-exe" [] [],
         ServerConfig.stdio "b" "good-exe" [] []] [] emptyRegistry
      = (["b"], ⟨[], [("b_p", [])], []⟩) :=
  ⟨(failed_backend_contributes_nothing failSpawnWorld
      (.stdio "a" "bad-exe" [] []) "spawn bad-exe ENOENT" rfl).1 [] emptyRegistry,
   (failed_backend_contributes_nothing failSpawnWorld
      (.stdio "a" "bad-exe" [] []) "spawn bad-exe ENOENT" rfl).2 []
      [ServerConfig.stdio "b" "good-exe" [] []] [] emptyRegistry,
   rfl⟩

end McpGuard
